import Mathlib

/-!
Verification of the `synbiont` governance-spreadsheet lifting scripts
(`scripts/lift_gov_rules.py` and `scripts/lift_datatype_rules.py`).

The scripts transform a 2-D grid of optional text cells into a Turtle
document.  We embed the transformation shallowly: cells are `Option String`,
the pandas DataFrame is a list of rows, Python dicts are association lists
preserving insertion order, and each Python function becomes a Lean
function of the same name.

Text fragment modelled: the affected strings are ASCII.  On ASCII text,
Python's `unicodedata.normalize("NFKC", s)` is the identity, so
`normalize_text` reduces to stripping; `unicodedata.normalize("NFKD", s)`
followed by `encode("ascii","ignore")` reduces to filtering out non-ASCII
code points.  Python's `str.lower`/`str.upper`/`str.strip` coincide with
the ASCII character operations used below.
-/

namespace Synbiont

/-! ### ASCII string primitives

Lean core's `String.trim`, `String.toLower`, `String.replace` are
implemented with byte positions and do not reduce in the kernel, so we
give equivalent character-list implementations. -/

/-- Python `str.lower` (ASCII). -/
def strLower (s : String) : String := ⟨s.data.map Char.toLower⟩

/-- Python `str.strip()` with no argument: remove leading and trailing
whitespace. -/
def strTrim (s : String) : String :=
  ⟨((s.data.dropWhile Char.isWhitespace).reverse.dropWhile Char.isWhitespace).reverse⟩

/-- Python `str.endswith`. -/
def strEndsWith (s suffix : String) : Bool := suffix.data.isSuffixOf s.data

/-- Python `str.replace(old, new)` for a single-character `old` (the only
form the scripts use). -/
def strReplaceChar (s : String) (c : Char) (repl : String) : String :=
  ⟨s.data.flatMap (fun x => if x = c then repl.data else [x])⟩

/-- Python `needle in haystack` substring test. -/
def strContainsB (haystack needle : String) : Bool :=
  decide (needle.data <:+: haystack.data)

/-- Python `str.rstrip("*")`: remove trailing `*` characters. -/
def rstripStar (s : String) : String :=
  ⟨(s.data.reverse.dropWhile (fun c => c = '*')).reverse⟩

/-! ### Decimal numerals

`camel_case_identifier` disambiguates colliding identifier bases by
appending Python's decimal rendering of a counter, i.e. `Nat.repr`.
Distinctness of the generated identifiers needs injectivity of `Nat.repr`,
which we prove by evaluating the digit string back to a number. -/

/-- Numeric value of a decimal digit character. -/
def digitVal (c : Char) : Nat := c.toNat - '0'.toNat

/-- Value of a big-endian decimal digit string. -/
def digitsVal (l : List Char) : Nat := l.foldl (fun a c => a * 10 + digitVal c) 0

/-! ### Shared text normalizers

These are line-identical in `lift_gov_rules.py` and `lift_datatype_rules.py`,
so a single embedding covers both scripts. -/

/-- `normalize_text`: NFKC-normalize and strip.  NFKC is the identity on
the ASCII fragment modelled, leaving the strip. -/
def normalize_text (value : String) : String := strTrim value

/-- `ascii_text`: NFKD-decompose, then drop non-ASCII code points.  On the
modelled fragment this is the filter keeping code points below 128. -/
def ascii_text (value : String) : String :=
  ⟨value.data.filter (fun c => c.toNat < 128)⟩

/-- One maximal whitespace run collapses to a single space
(`re.sub(r"\s+", " ", text)`). -/
def squeezeWs : List Char → List Char
  | [] => []
  | c :: cs =>
    let rest := squeezeWs cs
    if c.isWhitespace then
      match cs with
      | c2 :: _ => if c2.isWhitespace then rest else ' ' :: rest
      | [] => ' ' :: rest
    else c :: rest

/-- `normalize_label_text`: normalize, then collapse whitespace runs. -/
def normalize_label_text (value : String) : String :=
  ⟨squeezeWs (normalize_text value).data⟩

/-- Hexadecimal digit characters for `json.dumps` control-character
escapes. -/
def hexDigit (n : Nat) : Char :=
  if n < 10 then Char.ofNat ('0'.toNat + n) else Char.ofNat ('a'.toNat + (n - 10))

/-- Escaping of one character exactly as Python `json.dumps` renders
string contents (ASCII input). -/
def jsonEscapeChar (c : Char) : List Char :=
  if c = '"' then ['\\', '"']
  else if c = '\\' then ['\\', '\\']
  else if c = '\n' then ['\\', 'n']
  else if c = '\t' then ['\\', 't']
  else if c = '\r' then ['\\', 'r']
  else if c = '\x08' then ['\\', 'b']
  else if c = '\x0c' then ['\\', 'f']
  else if c.toNat < 32 then
    ['\\', 'u', '0', '0', hexDigit (c.toNat / 16), hexDigit (c.toNat % 16)]
  else [c]

/-- Python `json.dumps` on a string (ASCII input). -/
def jsonDumps (s : String) : String :=
  ⟨'"' :: (s.data.flatMap jsonEscapeChar ++ ['"'])⟩

/-- `literal`: ASCII-fold the normalized value and render it as a JSON
(double-quoted) string. -/
def literal (value : String) : String := jsonDumps (ascii_text (normalize_text value))

/-- `normalize_bool`: strip the trailing exception marker and whitespace,
then match yes/no synonym sets case-insensitively. -/
def normalize_bool (value : String) : Option Bool :=
  let collapsed := strTrim (rstripStar (normalize_text value))
  let lowered := strLower collapsed
  if ["yes", "y", "true"].contains lowered then some true
  else if ["no", "n", "false"].contains lowered then some false
  else none

/-! ### Fixed tables of `lift_gov_rules.py` -/

def PROPERTY_ORDER : List (String × String) := [
  ("Identifiability risks", "sagegov:identifiabilityRisk"),
  ("Access Level", "sagegov:accessLevel"),
  ("Description", "dct:description"),
  ("Capabilities", "sagegov:capabilities"),
  ("Examples", "sagegov:example"),
  ("Downloadable data", "sagegov:downloadable"),
  ("Redistribution", "sagegov:redistributable"),
  ("Affiliation Requirement", "sagegov:accessPrerequisite"),
  ("Synapse Account", "sagegov:requireSynapseAccount"),
  ("Human Subjects Training", "sagegov:requireHumanSubjectsTraining"),
  ("Data Access Request", "sagegov:requireDataAccessRequest"),
  ("Data Use Certificate Signed by Signing Official", "sagegov:requireDataUseCertificate"),
  ("General description of research objectives (posted)", "sagegov:requireResearchObjective"),
  ("Proof of IRB approval", "sagegov:requireIrbApproval"),
  ("Technical environment security standards", "sagegov:requireSecurity"),
  ("Approval Process", "sagegov:approvalProcess")]

def BOOLEAN_FIELDS : List String := [
  "Downloadable data",
  "Redistribution",
  "Affiliation Requirement",
  "Synapse Account",
  "Human Subjects Training",
  "Data Access Request",
  "Data Use Certificate Signed by Signing Official",
  "General description of research objectives (posted)",
  "Proof of IRB approval"]

def HEADER_ROWS : List String := [
  "Access Prerequisites",
  "Request Submission and Approval Steps"]

def DATA_TYPE_COLUMNS : List Nat := []

def ALSO_DATA_LABELS : List String := ["hipaa safe harbor"]

def ACCESS_LEVEL_NOTE_PRED : String := "sagegov:accessLevelNote"

def VALUE_STRINGS_TO_SKIP : List String := [
  "** with some exceptions at data contributors discretion",
  "** with some exceptions at data contributor\x27s discretion"]

def EXCEPTION_MARKER : String := "**"

/-- `(term, label, comment)` rows of `ACCESS_LEVEL_DEFS`, in insertion
order. -/
def ACCESS_LEVEL_DEFS : List (String × String × String) := [
  ("AnonymousOrOpen", "Anonymous / Open",
    "Data is usable without registration or affiliation."),
  ("Registered", "Registered",
    "Data usage requires a Synapse account but not additional governance approvals."),
  ("RestrictedOrLimited", "Restricted / Limited",
    "Data usage limited by contributor-defined contract terms."),
  ("Controlled", "Controlled",
    "Data potentially re-identifiable and subject to access review."),
  ("Enclave", "Enclave",
    "Sensitive data that must remain inside a secure compute enclave.")]

/-- `re.sub(r"[^a-z0-9]+", "", s.lower())`: the normalized lookup key of a
vocabulary label. -/
def vocab_key (s : String) : String :=
  ⟨(strLower s).data.filter (fun c => c.isLower || c.isDigit)⟩

def ACCESS_LEVEL_LOOKUP : List (String × String) :=
  ACCESS_LEVEL_DEFS.map (fun d => (vocab_key d.2.1, d.1))

def IDENTIFIABILITY_RISK_DEFS : List (String × String × String) := [
  ("LowIdentifiabilityRisk", "Low",
    "Data has low likelihood of re-identification."),
  ("SomeIdentifiabilityRisk", "Some risks",
    "Data could, in certain contexts, be used to re-identify individuals."),
  ("HighIdentifiabilityRisk", "High",
    "Data is likely to re-identify individuals if misused.")]

def IDENTIFIABILITY_RISK_LOOKUP : List (String × String) :=
  IDENTIFIABILITY_RISK_DEFS.map (fun d => (vocab_key d.2.1, d.1))

def SECURITY_STANDARD_DEFS : List (String × String × String) := [
  ("NoSecurityStandard", "No security standard required",
    "No specific technical environment requirements declared."),
  ("NIST800171", "NIST 800-171",
    "Environment aligned with NIST Special Publication 800-171."),
  ("ISO27001", "ISO 27001",
    "Environment aligned with the ISO/IEC 27001 information security standard."),
  ("SecureCompliantEnclave", "Secure compliant enclave",
    "Data must remain inside a secured enclave that satisfies contributor requirements.")]

def SECURITY_STANDARD_KEYWORDS : List (String × List (List String)) := [
  ("NoSecurityStandard", [["no"]]),
  ("NIST800171", [["nist", "800", "171"]]),
  ("ISO27001", [["iso", "27001"]]),
  ("SecureCompliantEnclave", [["secure", "enclave"]])]

def RESERVED_IDENTIFIERS : List String :=
  ACCESS_LEVEL_DEFS.map (fun d => d.1) ++
    IDENTIFIABILITY_RISK_DEFS.map (fun d => d.1) ++
    SECURITY_STANDARD_DEFS.map (fun d => d.1)

def SOURCE_NOTE : String := "reference/DataTypes-brief-Sept2025.xlsx"

/-! ### Identifier allocator (`camel_case_identifier`) -/

/-- Splits a character list into the maximal runs satisfying `p`
(separator runs are dropped), as `re.split(r"[^0-9A-Za-z]+", s)` does
after discarding empty parts. -/
def wordsBy (p : Char → Bool) : List Char → List (List Char)
  | [] => []
  | c :: cs =>
    let rest := wordsBy p cs
    if p c then
      match cs, rest with
      | c2 :: _, w :: ws => if p c2 then (c :: w) :: ws else [c] :: w :: ws
      | _, _ => [c] :: rest
    else rest

/-- Python `str.isupper`: at least one cased character and no lowercase
one. -/
def pyIsUpper (s : String) : Bool :=
  s.data.any Char.isAlpha && s.data.all (fun c => !c.isLower)

/-- `p[0].upper() + p[1:].lower()` on a word part. -/
def capitalizePart (s : String) : String :=
  match s.data with
  | [] => ""
  | c :: cs => ⟨c.toUpper :: cs.map Char.toLower⟩

/-- `base[0].isdigit()`; the base is never empty in the script. -/
def headIsDigit (s : String) : Bool :=
  match s.data with
  | [] => false
  | c :: _ => c.isDigit

/-- The identifier base computed by `camel_case_identifier` before the
usage counter is consulted (lines 219-234 of `lift_gov_rules.py`). -/
def identifier_base (value : String) : String :=
  let safe_value := strReplaceChar value '/' " Or "
  let parts := (wordsBy Char.isAlphanum (strTrim safe_value).data).map
    (fun w => (⟨w⟩ : String))
  let base :=
    if parts.isEmpty then "Profile"
    else String.join (parts.map (fun p => if pyIsUpper p then p else capitalizePart p))
  let base := if RESERVED_IDENTIFIERS.contains base then base ++ "Profile" else base
  if headIsDigit base then "Profile" ++ base else base

/-- Python dict assignment `seen[k] = v` on an insertion-ordered
association list. -/
def seen_set : List (String × Nat) → String → Nat → List (String × Nat)
  | [], k, v => [(k, v)]
  | (k0, v0) :: rest, k, v =>
    if k0 = k then (k, v) :: rest else (k0, v0) :: seen_set rest k v

/-- Python dict access `seen.get(k)` on an association list. -/
def seen_lookup : List (String × Nat) → String → Option Nat
  | [], _ => none
  | (k0, v0) :: rest, k => if k = k0 then some v0 else seen_lookup rest k

/-- `camel_case_identifier(value, seen)`: allocate an identifier and
update the usage counter. -/
def camel_case_identifier (value : String) (seen : List (String × Nat)) :
    String × List (String × Nat) :=
  let base := identifier_base value
  let count := (seen_lookup seen base).getD 0
  if count ≠ 0 then (base ++ Nat.repr (count + 1), seen_set seen base (count + 1))
  else (base, seen_set seen base 1)

/-- Successive calls to `camel_case_identifier` threading one usage
counter, as `build_turtle` performs them. -/
def allocate_ids_go (seen : List (String × Nat)) : List String → List String
  | [] => []
  | l :: rest =>
    let r := camel_case_identifier l seen
    r.1 :: allocate_ids_go r.2 rest

/-- The identifiers allocated for a label sequence within one run
(counter initially empty). -/
def allocate_ids (labels : List String) : List String := allocate_ids_go [] labels

/-! ### Allocator correctness

`allocate_ids` is characterized by the number of earlier labels sharing
the same identifier base: the first use of a base is returned unsuffixed,
the `k`-th use gets the decimal suffix `k`. -/

/-- Number of labels in `labels` whose identifier base is `b`. -/
def base_count (labels : List String) (b : String) : Nat :=
  (labels.filter (fun l => identifier_base l == b)).length

/-- The identifier produced for a base `b` that `k` earlier labels
already mapped to. -/
def id_spec (k : Nat) (b : String) : String :=
  if k = 0 then b else b ++ Nat.repr (k + 1)

/-- Reference description of the allocated identifiers, accumulating the
labels already processed in `prior`. -/
def ids_spec (prior : List String) : List String → List String
  | [] => []
  | l :: rest =>
    id_spec (base_count prior (identifier_base l)) (identifier_base l) ::
      ids_spec (prior ++ [l]) rest

/-- The usage counter faithfully records `base_count` of the processed
prefix. -/
def seen_inv (prior : List String) (seen : List (String × Nat)) : Prop :=
  ∀ b, seen_lookup seen b = if base_count prior b = 0 then none else some (base_count prior b)

/-! ### Controlled vocabulary resolvers -/

/-- Python dict access on a string-to-string association list. -/
def assoc_get : List (String × String) → String → Option String
  | [], _ => none
  | (k0, v0) :: rest, k => if k = k0 then some v0 else assoc_get rest k

/-- `access_level_term`: strip punctuation/case noise and look the value
up in the access-level vocabulary. -/
def access_level_term (value : String) : Option String :=
  assoc_get ACCESS_LEVEL_LOOKUP (vocab_key (normalize_text value))

/-- `identifiability_risk_term`. -/
def identifiability_risk_term (value : String) : Option String :=
  assoc_get IDENTIFIABILITY_RISK_LOOKUP (vocab_key (normalize_text value))

/-- The normalized text `security_standard_terms` matches against:
`normalize_text(value).lower().replace("/", " ")`. -/
def security_norm_text (value : String) : String :=
  strReplaceChar (strLower (normalize_text value)) '/' " "

/-- `security_standard_terms`: a term matches when some keyword pattern
has all its tokens contained in the normalized value. -/
def security_standard_terms (value : String) : List String :=
  let text := security_norm_text value
  SECURITY_STANDARD_KEYWORDS.filterMap (fun tp =>
    if tp.2.any (fun tokens => tokens.all (fun tok => strContainsB text tok)) then some tp.1
    else none)

/-- `format_value`: boolean fields render parseable values as bare
`true`/`false`; everything else becomes a quoted literal. -/
def format_value (label value : String) : String :=
  if BOOLEAN_FIELDS.contains label then
    match normalize_bool value with
    | some b => if b then "true" else "false"
    | none => literal value
  else literal value

/-! ### Profile collector (`collect_profiles`) -/

/-- One column's accumulator: the Python bucket dict restricted to its
row-label keys, plus the internal column index and the two marker-row
flags (`__column_index__`, `__row4_data`, `__row5_data`). -/
structure Profile where
  fields : List (String × List String)
  colIndex : Nat
  row4Data : Bool
  row5Data : Bool

/-- Python dict access on the bucket. -/
def bucket_get : List (String × List String) → String → Option (List String)
  | [], _ => none
  | (k0, v0) :: rest, k => if k = k0 then some v0 else bucket_get rest k

/-- `profile.get(label, [])`. -/
def profile_get (p : Profile) (label : String) : List String :=
  (bucket_get p.fields label).getD []

/-- `bucket.setdefault(label_key, []).append(value_text)`: append to an
existing key's list, or insert a new key at the end. -/
def bucket_append : List (String × List String) → String → String → List (String × List String)
  | [], k, v => [(k, [v])]
  | (k0, vs) :: rest, k, v =>
    if k0 = k then (k0, vs ++ [v]) :: rest else (k0, vs) :: bucket_append rest k v

/-- The input grid: a list of rows of optional text cells (the pandas
DataFrame read with `header=None`). -/
abbrev Grid := List (List (Option String))

/-- `df.shape[1]` (the DataFrame is rectangular; we take the widest row). -/
def grid_ncols (g : Grid) : Nat := g.foldr (fun row acc => max row.length acc) 0

/-- `df.iloc[:, c]`: column `c` as a series aligned with the rows,
missing cells being NaN. -/
def grid_col (g : Grid) (c : Nat) : List (Option String) :=
  g.map (fun row => (row[c]?).getD none)

/-- Forward fill (`Series.ffill`): each NaN takes the last value above. -/
def ffill_go : Option String → List (Option String) → List (Option String)
  | _, [] => []
  | last, none :: rest => last :: ffill_go last rest
  | _, some v :: rest => some v :: ffill_go (some v) rest

def ffill (cells : List (Option String)) : List (Option String) := ffill_go none cells

/-- Loop body of `collect_profiles` for one `(row_idx, (label, raw_value))`
item; the state is `(bucket, has_row5_data, has_row4_data)`. -/
def collect_col_step (row4_idx row5_idx : Option Nat)
    (acc : List (String × List String) × Bool × Bool)
    (item : Nat × (Option String × Option String)) :
    List (String × List String) × Bool × Bool :=
  match item.2.1 with
  | none => acc
  | some label =>
    if HEADER_ROWS.contains label then acc
    else match item.2.2 with
      | none => acc
      | some raw_value =>
        let label_key := strTrim label
        let value_text := normalize_text raw_value
        if value_text = "" then acc
        else
          let normalized_skip :=
            strLower (strReplaceChar (strReplaceChar value_text '\x27' "") '"' "")
          if VALUE_STRINGS_TO_SKIP.contains normalized_skip then acc
          else
            (bucket_append acc.1 label_key value_text,
              acc.2.1 || (label_key == "Data Type" && row5_idx == some item.1),
              acc.2.2 || (label_key == "Data Type" && row4_idx == some item.1))

/-- The per-column pass of `collect_profiles`. -/
def collect_col (row_labels : List (Option String)) (row4_idx row5_idx : Option Nat)
    (series : List (Option String)) : List (String × List String) × Bool × Bool :=
  ((row_labels.zip series).enum).foldl (collect_col_step row4_idx row5_idx) ([], false, false)

/-- `collect_profiles(df)`: forward-fill and normalize the row labels,
locate the two "Data Type" marker rows, and collect one bucket per data
column, dropping columns that contributed nothing. -/
def collect_profiles (g : Grid) : List Profile :=
  let row_labels := (ffill (grid_col g 0)).map (Option.map normalize_text)
  let data_type_rows :=
    (row_labels.enum.filter (fun il => il.2 == some "Data Type")).map (fun il => il.1)
  let row4_idx := data_type_rows.head?
  let row5_idx := data_type_rows[1]?
  ((List.range (grid_ncols g)).drop 1).filterMap (fun c =>
    let r := collect_col row_labels row4_idx row5_idx (grid_col g c)
    if r.1.any (fun kv => !kv.2.isEmpty) then
      some { fields := r.1, colIndex := c, row4Data := r.2.2, row5Data := r.2.1 }
    else none)

/-! ### Graph emitter (`build_turtle`) — header section -/

def PREFIX_BLOCK : String :=
  "@prefix rdf: <http://www.w3.org/1999/02/22-rdf-syntax-ns#> .\n" ++
  "@prefix rdfs: <http://www.w3.org/2000/01/rdf-schema#> .\n" ++
  "@prefix owl: <http://www.w3.org/2002/07/owl#> .\n" ++
  "@prefix skos: <http://www.w3.org/2004/02/skos/core#> .\n" ++
  "@prefix dct: <http://purl.org/dc/terms/> .\n" ++
  "@prefix sagegov: <https://synapse.org/synbiont/governance/> .\n"

def CLASS_BLOCK : String :=
  "\nsagegov:AccessProfile rdf:type owl:Class ;\n" ++
  "  rdfs:label \"Sage governance access profile\" ;\n" ++
  "  rdfs:comment \"Profiles derived from the Sage governance reference spreadsheet.\" .\n\n" ++
  "sagegov:Data rdf:type owl:Class ;\n" ++
  "  rdfs:label \"Sage data type\" ;\n" ++
  "  rdfs:comment \"Data classifications referenced in governance policies.\" ;\n" ++
  "  rdfs:subClassOf <http://purl.obolibrary.org/obo/IAO_0000027> .\n\n" ++
  "sagegov:AccessLevel rdf:type owl:Class ;\n" ++
  "  rdfs:label \"Access level\" ;\n" ++
  "  rdfs:comment \"Permitted usage tiers for Synapse data.\" .\n\n" ++
  "sagegov:SecurityStandard rdf:type owl:Class ;\n" ++
  "  rdfs:label \"Security standard\" ;\n" ++
  "  rdfs:comment \"Required technical environment controls for handling data.\" .\n\n" ++
  "sagegov:AccessProcess\n" ++
  "  rdfs:label \"Access process\" ;\n" ++
  "  rdfs:comment \"Named procedures used to approve or deny data access.\" .\n\n" ++
  "sagegov:DataAccessCommitteeApproval rdfs:subClassOf sagegov:AccessProcess ;\n" ++
  "  rdfs:label \"Data Access Committee approval\" ;\n" ++
  "  rdfs:comment \"Approval performed manually by the Sage Data Access Committee.\" .\n\n" ++
  "sagegov:SynapseAccountCheck rdfs:subClassOf sagegov:AccessProcess ;\n" ++
  "  rdfs:label \"Synapse account check\" ;\n" ++
  "  rdfs:comment \"Approval step that only validates the requester has an active Synapse account.\" .\n\n" ++
  "sagegov:AutomatedClickwrap rdfs:subClassOf sagegov:AccessProcess ;\n" ++
  "  rdfs:label \"Automated clickwrap\" ;\n" ++
  "  rdfs:comment \"Automatic approval that relies on a click-through agreement.\" .\n\n" ++
  "sagegov:IdentifiabilityRisk rdf:type owl:Class ;\n" ++
  "  rdfs:label \"Identifiability risk\" ;\n" ++
  "  rdfs:comment \"Relative likelihood that data could be used to re-identify individuals.\" .\n\n" ++
  "sagegov:AccessProfileRule rdf:type owl:Class ;\n" ++
  "  rdfs:label \"Governance rule\" ;\n" ++
  "  rdfs:comment \"Helper class for constraints referenced inside the governance module.\" ;\n" ++
  "  rdfs:isDefinedBy sagegov:AccessProfile ."

def PROPERTY_DECLARATIONS : List (String × String × String) := [
  ("sagegov:hasCapability", "has capability",
    "Generic capability fact derived from the governance reference table."),
  ("sagegov:hasAccessPrerequisite", "has access prerequisite",
    "Prerequisite requirement that must be satisfied before access is granted."),
  ("sagegov:allowsException", "allows exception",
    "Marks requirements that support limited contributor exceptions."),
  ("sagegov:approvalProcess", "approval process",
    "Describes how data access requests are reviewed."),
  ("sagegov:requireSynapseAccount", "require Synapse account",
    "Indicates whether requestors must hold an active Synapse account."),
  ("sagegov:recommendedAccessLevel", "recommended access level",
    "Heuristic access tier recommended by governance reasoning.")]

def SUBPROPERTY_MAP : List (String × String) := [
  ("sagegov:humanSubjectsTraining", "sagegov:hasAccessPrerequisite"),
  ("sagegov:dataAccessRequest", "sagegov:hasAccessPrerequisite"),
  ("sagegov:dataUseCertificate", "sagegov:hasAccessPrerequisite"),
  ("sagegov:researchObjectiveRequirement", "sagegov:hasAccessPrerequisite"),
  ("sagegov:irbApproval", "sagegov:hasAccessPrerequisite"),
  ("sagegov:securityRequirements", "sagegov:hasAccessPrerequisite")]

def MANUAL_SUBPROPERTY_ASSERTIONS : List (String × String) := [
  ("sagegov:requireSynapseAccount", "sagegov:hasAccessPrerequisite")]

/-- `lines[-1] = lines[-1].rstrip(" ;") + " ."`. -/
def rstripSemiSpace (s : String) : String :=
  ⟨(s.data.reverse.dropWhile (fun c => c = ' ' || c = ';')).reverse⟩

def terminate_last (lines : List String) : List String :=
  lines.dropLast ++ [rstripSemiSpace (lines.getLastD "") ++ " ."]

def access_level_defs_block : String :=
  String.intercalate "\n\n" (ACCESS_LEVEL_DEFS.map (fun d =>
    let term := d.1
    let lbl := literal d.2.1
    let cm := d.2.2
    let lines := [s!"sagegov:{term}", "  rdfs:subClassOf sagegov:AccessLevel ;",
      s!"  skos:prefLabel {lbl} ;"]
    let lines := if cm ≠ "" then
        (let cl := literal cm; lines ++ [s!"  rdfs:comment {cl} ;"])
      else lines
    String.intercalate "\n" (terminate_last lines)))

def identifiability_risk_defs_block : String :=
  String.intercalate "\n\n" (IDENTIFIABILITY_RISK_DEFS.map (fun d =>
    let term := d.1
    let lbl := literal d.2.1
    let cm := d.2.2
    let lines := [s!"sagegov:{term}", "  rdfs:subClassOf sagegov:IdentifiabilityRisk ;",
      s!"  skos:prefLabel {lbl} ;"]
    let lines := if cm ≠ "" then
        (let cl := literal cm; lines ++ [s!"  rdfs:comment {cl} ;"])
      else lines
    String.intercalate "\n" (terminate_last lines)))

def security_standard_defs_block : String :=
  String.intercalate "\n\n" (SECURITY_STANDARD_DEFS.map (fun d =>
    let term := d.1
    let lbl := literal d.2.1
    let cm := d.2.2
    let lines := [s!"sagegov:{term} rdf:type sagegov:SecurityStandard ;",
      s!"  skos:prefLabel {lbl} ;"]
    let lines := if cm ≠ "" then
        (let cl := literal cm; lines ++ [s!"  rdfs:comment {cl} ;"])
      else lines
    String.intercalate "\n" (terminate_last lines)))

/-- Everything after the first `:`, i.e. `child.split(":", 1)[1]`. -/
def split_after_colon : List Char → List Char
  | [] => []
  | c :: cs => if c = ':' then cs else split_after_colon cs

/-- `f"sagegov:require{local_name[0].upper()}{local_name[1:]}"`. -/
def require_child_name (child : String) : String :=
  match split_after_colon child.data with
  | [] => "sagegov:require"
  | c :: cs => ⟨"sagegov:require".data ++ (c.toUpper :: cs)⟩

def property_axioms_block : String :=
  let decl_blocks := PROPERTY_DECLARATIONS.map (fun d =>
    let iri := d.1
    let lbl := literal d.2.1
    let cm := d.2.2
    let lines := [s!"{iri} rdf:type rdf:Property ;", s!"  rdfs:label {lbl} ;"]
    let lines := if cm ≠ "" then
        (let cl := literal cm; lines ++ [s!"  rdfs:comment {cl} ;"])
      else lines
    String.intercalate "\n" (terminate_last lines))
  let sub_blocks := SUBPROPERTY_MAP.map (fun cp =>
    let child := cp.1
    let parent := cp.2
    let rc := require_child_name child
    String.intercalate "\n" [s!"{rc} rdf:type rdf:Property ;",
      s!"  rdfs:subPropertyOf {parent} ;", s!"  owl:equivalentProperty {child} ."])
  let manual_blocks := MANUAL_SUBPROPERTY_ASSERTIONS.map (fun cp =>
    let child := cp.1
    let parent := cp.2
    s!"{child} rdfs:subPropertyOf {parent} .")
  String.intercalate "\n\n" (decl_blocks ++ sub_blocks ++ manual_blocks)

/-! ### Graph emitter — per-profile section -/

/-- First value (with its index) of the access-level list that resolves
to a vocabulary term: the `for idx, value in enumerate(values)` search
with `break`. -/
def find_canonical : List String → Option (Nat × String)
  | [] => none
  | v :: rest =>
    match access_level_term v with
    | some t => some (0, t)
    | none => (find_canonical rest).map (fun it => (it.1 + 1, it.2))

/-- One secondary "access level note" statement. -/
def access_level_note_stmt (value : String) : String :=
  let lv := literal value
  s!"  {ACCESS_LEVEL_NOTE_PRED} {lv} ;"

/-- The `for idx, value in enumerate(values)` loop emitting notes for
every index other than the canonical one. -/
def access_level_note_lines (idx canonical_index : Nat) : List String → List String
  | [] => []
  | value :: rest =>
    if idx == canonical_index then access_level_note_lines (idx + 1) canonical_index rest
    else access_level_note_stmt value :: access_level_note_lines (idx + 1) canonical_index rest

/-- The "Access Level" branch of the property loop: one canonical term
statement for the first resolving value, notes for the remaining values;
all-literal fallback when nothing resolves. -/
def access_level_lines (predicate : String) (values : List String) : List String :=
  match find_canonical values with
  | none => values.map (fun v => let lv := literal v; s!"  {predicate} {lv} ;")
  | some it =>
    let t := it.2
    s!"  {predicate} sagegov:{t} ;" :: access_level_note_lines 0 it.1 values

/-- The "Identifiability risks" branch: per-value resolution with literal
fallback. -/
def identifiability_lines (predicate : String) (values : List String) : List String :=
  values.map (fun v =>
    match identifiability_risk_term v with
    | some t => s!"  {predicate} sagegov:{t} ;"
    | none => let lv := literal v; s!"  {predicate} {lv} ;")

/-- The "Technical environment security standards" branch: one statement
per matched standard, literal fallback for a value with no match. -/
def security_lines (predicate : String) (values : List String) : List String :=
  values.flatMap (fun v =>
    let terms := security_standard_terms v
    if !terms.isEmpty then terms.map (fun t => s!"  {predicate} sagegov:{t} ;")
    else (let lv := literal v; [s!"  {predicate} {lv} ;"]))

/-- The "Approval Process" branch: ordered free-text classification with
literal fallback. -/
def approval_lines (predicate : String) (values : List String) : List String :=
  values.flatMap (fun value =>
    let normalized := normalize_text value
    let lowered := strLower normalized
    if lowered = "no" then []
    else if strContainsB lowered "dac" then [s!"  {predicate} sagegov:DataAccessCommittee ;"]
    else if strContainsB lowered "automated" && strContainsB lowered "clickwrap" then
      [s!"  {predicate} sagegov:AutomatedClickwrap ;"]
    else if strContainsB lowered "synapse" && strContainsB lowered "account" then
      [s!"  {predicate} sagegov:SynapseAccountCheck ;"]
    else (let ln := literal normalized; [s!"  {predicate} {ln} ;"]))

/-- The default branch of the property loop: one statement per value,
plus an `allowsException` statement for values carrying the trailing
exception marker. -/
def plain_field_lines (label predicate : String) (values : List String) : List String :=
  values.flatMap (fun value =>
    let exception_flag := strEndsWith value EXCEPTION_MARKER
    let fv := format_value label value
    s!"  {predicate} {fv} ;" ::
      (if exception_flag then ["  sagegov:allowsException true ;"] else []))

/-- Dispatch of the property loop body on the field label. -/
def field_lines (label predicate : String) (values : List String) : List String :=
  if label = "Access Level" then access_level_lines predicate values
  else if label = "Identifiability risks" then identifiability_lines predicate values
  else if label = "Technical environment security standards" then security_lines predicate values
  else if label = "Approval Process" then approval_lines predicate values
  else plain_field_lines label predicate values

/-- The `for label, predicate in PROPERTY_ORDER` loop: collected
statement lines and the `wrote_access_level` flag. -/
def property_lines (p : Profile) : List String × Bool :=
  PROPERTY_ORDER.foldl (fun acc lp =>
    let label := lp.1
    let predicate := lp.2
    let values := profile_get p label
    if values.isEmpty then acc
    else (acc.1 ++ field_lines label predicate values, acc.2 || (label == "Access Level")))
    ([], false)

/-- Classification in `lift_gov_rules.build_turtle` (lines 433-446 minus
the column-designation input, which is threaded in by the caller):
returns the final `is_data` flag and the `classes` list. -/
def gov_classify (is_data : Bool) (pref_label : String) : Bool × List String :=
  let access_profile_flag := !is_data
  let label_norm := strLower (normalize_label_text pref_label)
  let pair :=
    if ALSO_DATA_LABELS.contains label_norm then (true, false)
    else (is_data, access_profile_flag)
  (pair.1, if pair.2 then ["sagegov:AccessProfile"] else [])

/-- The node-name computation (lines 422-427): "Data Type" values, else
the first "Access Level" value, else nothing. -/
def gov_names (p : Profile) : List String :=
  let names := (profile_get p "Data Type").map normalize_label_text
  if names.isEmpty then
    match profile_get p "Access Level" with
    | v :: _ => [normalize_label_text v]
    | [] => []
  else names

/-- One iteration of the profile loop of `build_turtle`: `none` when the
profile is skipped (no usable name), otherwise the node block and the
updated identifier counter. -/
def gov_node_entry (seen : List (String × Nat)) (p : Profile) :
    Option (String × List (String × Nat)) :=
  match gov_names p with
  | [] => none
  | pref_label :: rest =>
    let alt_labels := rest.filter (fun name => name != pref_label)
    let r := camel_case_identifier pref_label seen
    let node_id := r.1
    let is_data := !DATA_TYPE_COLUMNS.isEmpty && DATA_TYPE_COLUMNS.contains p.colIndex
    let is_data := is_data || p.row4Data || p.row5Data
    let is_data := if p.row5Data then true else is_data
    let cl := gov_classify is_data pref_label
    let is_data := cl.1
    let classes := cl.2
    let entry_lines :=
      if !classes.isEmpty then
        (let cs := String.intercalate ", " classes
         [s!"sagegov:{node_id} rdf:type {cs} ;"])
      else [s!"sagegov:{node_id}"]
    let pl := literal pref_label
    let entry_lines := entry_lines ++ [s!"  skos:prefLabel {pl} ;"]
    let entry_lines := entry_lines ++ alt_labels.map (fun alt =>
      let la := literal alt
      s!"  skos:altLabel {la} ;")
    let entry_lines := entry_lines ++
      (if is_data then ["  rdfs:subClassOf sagegov:Data ;"] else [])
    let props := property_lines p
    let entry_lines := entry_lines ++ props.1
    let entry_lines := entry_lines ++
      (if is_data && !props.2 then ["  sagegov:accessLevel sagegov:AnonymousOrOpen ;"] else [])
    let sn := literal SOURCE_NOTE
    let entry_lines := entry_lines ++ [s!"  dct:source {sn} ."]
    some (String.intercalate "\n" entry_lines, r.2)

/-- The profile loop of `build_turtle`: emitted node blocks in column
order, threading the identifier counter. -/
def emit_profiles_go (seen : List (String × Nat)) : List Profile → List String
  | [] => []
  | p :: rest =>
    match gov_node_entry seen p with
    | none => emit_profiles_go seen rest
    | some r => r.1 :: emit_profiles_go r.2 rest

def emit_profiles (profiles : List Profile) : List String := emit_profiles_go [] profiles

def header_blocks : List String := [
  strTrim PREFIX_BLOCK, strTrim CLASS_BLOCK, strTrim access_level_defs_block,
  strTrim identifiability_risk_defs_block, strTrim security_standard_defs_block,
  strTrim property_axioms_block, ""]

/-- `build_turtle(profiles)`: header blocks, then one block per emitted
profile, joined by blank lines. -/
def build_turtle (profiles : List Profile) : String :=
  let lines := (header_blocks.filter (fun b => b != "")) ++ emit_profiles profiles
  strTrim (String.intercalate "\n\n" lines) ++ "\n"

/-- The fallible core of `main` (lines 538-544): collect the profiles,
fail exactly when none were found, otherwise build the document.  File
input and output are external to this core. -/
def run_transform (g : Grid) : Except String String :=
  let profiles := collect_profiles g
  if profiles.isEmpty then Except.error "No profiles found in the worksheet"
  else Except.ok (build_turtle profiles)

/-! ### `lift_datatype_rules.py`: classification

The datatype script shares the collector and the property loop shape but
computes the `classes` list differently (lines 294-303): the override
labels add *both* `sagegov:Data` and `sagegov:AccessProfile`. -/

def dt_classes (is_data : Bool) (pref_label : String) : List String :=
  let classes := ["skos:Concept"] ++
    (if is_data then ["sagegov:Data"] else ["sagegov:AccessProfile"])
  if ALSO_DATA_LABELS.contains (strLower (normalize_label_text pref_label)) then
    let classes :=
      if !(classes.contains "sagegov:Data") then classes ++ ["sagegov:Data"] else classes
    if !(classes.contains "sagegov:AccessProfile") then classes ++ ["sagegov:AccessProfile"]
    else classes
  else classes

/-! ### Concrete inputs used by the claim theorems -/

/-- A one-row grid whose single data column carries only a
"Description" value: its bucket is non-empty but has no usable primary
label. -/
def c1_grid : Grid := [[some "Description", some "Blah"]]

/-- The round-trip scenario grid of the spec: column A is
Clinical/Open, column B is Genomic/Controlled-with-exception-marker. -/
def c4_grid : Grid :=
  [[some "Data Type", some "Clinical", some "Genomic"],
   [some "Access Level", some "Open", some "Controlled**"]]

/-- A profile whose primary label is in the dual-classification override
list and whose marker flags are clear. -/
def c3_profile : Profile :=
  { fields := [("Data Type", ["HIPAA Safe Harbor"])],
    colIndex := 1, row4Data := false, row5Data := false }

/-- An empty grid: no data columns, hence no profiles. -/
def c9_empty_grid : Grid := [[]]

/-! ### Supporting lemmas: strings, decimal numerals, and the
identifier allocator -/

lemma string_data_inj {s t : String} (h : s.data = t.data) : s = t := by
  cases s; cases t; exact congrArg String.mk h

lemma string_append_data (s t : String) : (s ++ t).data = s.data ++ t.data := by
  cases s; cases t; rfl

lemma digitsVal_append_singleton (l : List Char) (c : Char) :
    digitsVal (l ++ [c]) = digitsVal l * 10 + digitVal c := by
  simp [digitsVal, List.foldl_append]

lemma digitVal_digitChar {m : Nat} (h : m < 10) :
    digitVal (Nat.digitChar m) = m := by
  interval_cases m <;> decide

lemma toDigitsCore_append (f n : Nat) (acc : List Char) :
    Nat.toDigitsCore 10 f n acc = Nat.toDigitsCore 10 f n [] ++ acc := by
  induction f generalizing n acc with
  | zero => simp [Nat.toDigitsCore]
  | succ f ih =>
    simp only [Nat.toDigitsCore]
    by_cases h : n / 10 = 0
    · simp [h]
    · simp only [h, if_false]
      rw [ih (n / 10) (Nat.digitChar (n % 10) :: acc),
        ih (n / 10) [Nat.digitChar (n % 10)]]
      simp

lemma toDigitsCore_val (f : Nat) : ∀ n : Nat, n < 10 ^ f →
    digitsVal (Nat.toDigitsCore 10 f n []) = n := by
  induction f with
  | zero =>
    intro n hn
    interval_cases n
    simp [Nat.toDigitsCore, digitsVal]
  | succ f ih =>
    intro n hn
    simp only [Nat.toDigitsCore]
    by_cases h : n / 10 = 0
    · have hlt : n < 10 := by omega
      have hmod : n % 10 = n := Nat.mod_eq_of_lt hlt
      simp [h, digitsVal, hmod, digitVal_digitChar hlt]
    · simp only [h, if_false]
      rw [toDigitsCore_append, digitsVal_append_singleton]
      have hdiv : n / 10 < 10 ^ f := by
        have : n < 10 ^ f * 10 := by
          simpa [Nat.pow_succ] using hn
        omega
      rw [ih (n / 10) hdiv, digitVal_digitChar (Nat.mod_lt n (by norm_num))]
      omega

lemma repr_data_eq (n : Nat) :
    (Nat.repr n).data = Nat.toDigitsCore 10 (n + 1) n [] := rfl

lemma digitsVal_repr (n : Nat) : digitsVal (Nat.repr n).data = n := by
  rw [repr_data_eq]
  refine toDigitsCore_val (n + 1) n ?_
  calc n < 10 ^ n := Nat.lt_pow_self (by norm_num) n
    _ ≤ 10 ^ (n + 1) := Nat.pow_le_pow_right (by norm_num) (Nat.le_succ n)

lemma nat_repr_injective {m n : Nat} (h : Nat.repr m = Nat.repr n) : m = n := by
  have := congrArg (fun s => digitsVal s.data) h
  simpa [digitsVal_repr] using this

lemma toDigitsCore_ne_nil (f n : Nat) (acc : List Char) :
    Nat.toDigitsCore 10 (f + 1) n acc ≠ [] := by
  simp only [Nat.toDigitsCore]
  by_cases h : n / 10 = 0
  · simp [h]
  · simp only [h, if_false]
    rw [toDigitsCore_append]
    simp

lemma repr_data_ne_nil (n : Nat) : (Nat.repr n).data ≠ [] := by
  rw [repr_data_eq]
  exact toDigitsCore_ne_nil n n []

lemma append_repr_ne (b : String) (n : Nat) : b ++ Nat.repr n ≠ b := by
  intro h
  have hd := congrArg String.data h
  rw [string_append_data] at hd
  have : (Nat.repr n).data = [] := by
    have := congrArg List.length hd
    simp at this
    exact List.length_eq_zero.mp this
  exact repr_data_ne_nil n this

lemma append_repr_inj {b : String} {m n : Nat}
    (h : b ++ Nat.repr m = b ++ Nat.repr n) : m = n := by
  have hd := congrArg String.data h
  rw [string_append_data, string_append_data] at hd
  have : (Nat.repr m).data = (Nat.repr n).data :=
    List.append_cancel_left hd
  exact nat_repr_injective (string_data_inj this)

lemma seen_set_lookup (s : List (String × Nat)) (k : String) (v : Nat) (k' : String) :
    seen_lookup (seen_set s k v) k' = if k' = k then some v else seen_lookup s k' := by
  induction s with
  | nil => simp [seen_set, seen_lookup]
  | cons hd tl ih =>
    obtain ⟨k0, v0⟩ := hd
    by_cases h : k0 = k
    · subst h
      by_cases h' : k' = k0 <;> simp [seen_set, seen_lookup, h']
    · by_cases h' : k' = k0
      · subst h'
        simp [seen_set, h, seen_lookup, Ne.symm h]
      · simp [seen_set, h, seen_lookup, h', ih]

lemma base_count_append (prior : List String) (l : String) (b : String) :
    base_count (prior ++ [l]) b =
      base_count prior b + (if identifier_base l = b then 1 else 0) := by
  simp only [base_count, List.filter_append, List.length_append]
  by_cases h : identifier_base l = b <;> simp [h]

lemma seen_inv_nil : seen_inv [] [] := by
  intro b
  simp [base_count, seen_lookup]

lemma seen_inv_step {prior : List String} {seen : List (String × Nat)}
    (hinv : seen_inv prior seen) (l : String) :
    seen_inv (prior ++ [l])
      (seen_set seen (identifier_base l) (base_count prior (identifier_base l) + 1)) := by
  intro b
  rw [seen_set_lookup, base_count_append]
  by_cases h : b = identifier_base l
  · subst h
    simp
  · have h' : ¬ identifier_base l = b := fun he => h he.symm
    simp [h, h', hinv b]

lemma camel_case_eq_spec {prior : List String} {seen : List (String × Nat)}
    (hinv : seen_inv prior seen) (l : String) :
    camel_case_identifier l seen =
      (id_spec (base_count prior (identifier_base l)) (identifier_base l),
        seen_set seen (identifier_base l) (base_count prior (identifier_base l) + 1)) := by
  have hcount : ((seen_lookup seen (identifier_base l)).getD 0) =
      base_count prior (identifier_base l) := by
    rw [hinv (identifier_base l)]
    by_cases h : base_count prior (identifier_base l) = 0 <;> simp [h]
  by_cases h : base_count prior (identifier_base l) = 0
  · simp [camel_case_identifier, hcount, h, id_spec]
  · simp [camel_case_identifier, hcount, h, id_spec]

lemma allocate_ids_go_spec (labels : List String) :
    ∀ (prior : List String) (seen : List (String × Nat)), seen_inv prior seen →
      allocate_ids_go seen labels = ids_spec prior labels := by
  induction labels with
  | nil => intro prior seen _; rfl
  | cons l rest ih =>
    intro prior seen hinv
    rw [allocate_ids_go, ids_spec, camel_case_eq_spec hinv l]
    exact congrArg _ (ih (prior ++ [l]) _ (seen_inv_step hinv l))

lemma allocate_ids_eq_spec (labels : List String) :
    allocate_ids labels = ids_spec [] labels :=
  allocate_ids_go_spec labels [] [] seen_inv_nil

lemma ids_spec_length (labels : List String) :
    ∀ prior, (ids_spec prior labels).length = labels.length := by
  induction labels with
  | nil => intro prior; rfl
  | cons l rest ih => intro prior; simp [ids_spec, ih]

lemma ids_spec_getElem? (labels : List String) :
    ∀ (prior : List String) (k : Nat),
      (ids_spec prior labels)[k]? = (labels[k]?).map
        (fun l => id_spec (base_count (prior ++ labels.take k) (identifier_base l))
          (identifier_base l)) := by
  induction labels with
  | nil => intro prior k; simp [ids_spec]
  | cons l rest ih =>
    intro prior k
    cases k with
    | zero => simp [ids_spec]
    | succ k =>
      simp only [ids_spec, List.getElem?_cons_succ, List.take_succ_cons]
      rw [ih (prior ++ [l]) k]
      simp [List.append_assoc]

lemma allocate_ids_length (labels : List String) :
    (allocate_ids labels).length = labels.length := by
  rw [allocate_ids_eq_spec]; exact ids_spec_length labels []

lemma allocate_ids_getElem? (labels : List String) (k : Nat) :
    (allocate_ids labels)[k]? = (labels[k]?).map
      (fun l => id_spec (base_count (labels.take k) (identifier_base l))
        (identifier_base l)) := by
  rw [allocate_ids_eq_spec, ids_spec_getElem?]
  simp

lemma id_spec_ne {k k' : Nat} (b : String) (h : k < k') :
    id_spec k b ≠ id_spec k' b := by
  unfold id_spec
  by_cases h0 : k = 0
  · subst h0
    have : ¬ k' = 0 := by omega
    simp only [if_pos rfl, this, if_false]
    exact fun he => append_repr_ne b (k' + 1) he.symm
  · have h0' : ¬ k' = 0 := by omega
    simp only [h0, h0', if_false]
    intro he
    have := append_repr_inj he
    omega

lemma base_count_mono {labels : List String} {m n : Nat} (h : m ≤ n) (b : String) :
    base_count (labels.take m) b ≤ base_count (labels.take n) b := by
  have hpre : List.Sublist (labels.take m) (labels.take n) := by
    have : labels.take m = (labels.take n).take m := by
      rw [List.take_take, Nat.min_eq_left h]
    rw [this]
    exact (List.take_prefix m (labels.take n)).sublist
  simpa [base_count] using (hpre.filter (fun l => identifier_base l == b)).length_le

lemma base_count_take_succ {labels : List String} {i : Nat} {li : String}
    (hi : labels[i]? = some li) :
    base_count (labels.take (i + 1)) (identifier_base li) =
      base_count (labels.take i) (identifier_base li) + 1 := by
  rw [List.take_succ, hi]
  simpa using base_count_append (labels.take i) li (identifier_base li)

/-- Identifiers allocated for two labels with the same base are always
distinct: the later call receives a strictly larger counter value, and
distinct counters yield distinct decimal suffixes. -/
lemma alloc_same_base_ne {labels : List String} {i j : Nat} {li lj : String}
    (hij : i < j) (hi : labels[i]? = some li) (hj : labels[j]? = some lj)
    (hb : identifier_base li = identifier_base lj) :
    (allocate_ids labels)[i]? ≠ (allocate_ids labels)[j]? := by
  rw [allocate_ids_getElem?, allocate_ids_getElem?, hi, hj]
  intro he
  simp only [Option.map] at he
  have heq := Option.some.inj he
  set b := identifier_base lj with hbdef
  rw [hb] at heq
  have hki : base_count (labels.take (i + 1)) b = base_count (labels.take i) b + 1 := by
    rw [← hb]
    exact base_count_take_succ hi
  have hmono : base_count (labels.take (i + 1)) b ≤ base_count (labels.take j) b :=
    base_count_mono hij b
  exact id_spec_ne b (by omega) heq

/-! ### Supporting lemmas about the emitter -/

lemma gov_node_entry_eq_none {seen : List (String × Nat)} {p : Profile} :
    gov_node_entry seen p = none ↔ gov_names p = [] := by
  cases h : gov_names p <;> simp [gov_node_entry, h]

lemma emit_profiles_go_length (ps : List Profile) :
    ∀ seen, (emit_profiles_go seen ps).length =
      (ps.filter (fun p => !(gov_names p).isEmpty)).length := by
  induction ps with
  | nil => intro seen; rfl
  | cons p rest ih =>
    intro seen
    cases hg : gov_names p with
    | nil =>
      have hnone : gov_node_entry seen p = none := by simp [gov_node_entry, hg]
      simp only [emit_profiles_go, hnone]
      simp [List.filter_cons, hg, ih seen]
    | cons a as =>
      cases he : gov_node_entry seen p with
      | none =>
        rw [gov_node_entry_eq_none] at he
        rw [he] at hg
        cases hg
      | some r =>
        simp only [emit_profiles_go, he]
        simp [List.filter_cons, hg, ih r.2]

lemma collect_profiles_nonempty (g : Grid) :
    (collect_profiles g).all (fun p => p.fields.any (fun kv => !kv.2.isEmpty)) = true := by
  rw [List.all_eq_true]
  intro p hp
  simp only [collect_profiles, List.mem_filterMap] at hp
  obtain ⟨c, -, hc⟩ := hp
  split at hc
  · rename_i hcond
    cases hc
    simpa using hcond
  · cases hc

lemma find_canonical_first (values : List String) :
    ∀ (i : Nat) (v t : String), values[i]? = some v → access_level_term v = some t →
      (∀ j w, j < i → values[j]? = some w → access_level_term w = none) →
      find_canonical values = some (i, t) := by
  induction values with
  | nil => intro i v t hv _ _; simp at hv
  | cons a rest ih =>
    intro i v t hv ht hmin
    cases i with
    | zero =>
      simp only [List.getElem?_cons_zero, Option.some.injEq] at hv
      subst hv
      simp [find_canonical, ht]
    | succ i =>
      have ha : access_level_term a = none := hmin 0 a (Nat.succ_pos i) (by simp)
      simp only [find_canonical, ha]
      rw [ih i v t (by simpa using hv) ht ?_]
      · rfl
      intro j w hj hw
      exact hmin (j + 1) w (by omega) (by simpa using hw)

lemma access_level_note_lines_eq (values : List String) :
    ∀ (start ci : Nat),
      access_level_note_lines start ci values =
        if start ≤ ci then (values.eraseIdx (ci - start)).map access_level_note_stmt
        else values.map access_level_note_stmt := by
  induction values with
  | nil => intro start ci; simp [access_level_note_lines]
  | cons v rest ih =>
    intro start ci
    by_cases h : start = ci
    · subst h
      simp only [access_level_note_lines, beq_self_eq_true, if_true]
      rw [ih (start + 1) start]
      simp [Nat.not_succ_le_self start, Nat.sub_self]
    · have hbe : (start == ci) = false := by simp [h]
      simp only [access_level_note_lines, hbe, Bool.false_eq_true, if_false]
      rw [ih (start + 1) ci]
      by_cases hle : start ≤ ci
      · have h1 : start + 1 ≤ ci := by omega
        have h2 : ci - start = (ci - (start + 1)) + 1 := by omega
        simp [hle, h1, h2, List.eraseIdx_cons_succ]
      · have h1 : ¬ start + 1 ≤ ci := by omega
        simp [hle, h1]

lemma base_count_take_of_all {labels : List String} {b : String}
    (hall : ∀ l ∈ labels, identifier_base l = b) {k : Nat} (hk : k ≤ labels.length) :
    base_count (labels.take k) b = k := by
  unfold base_count
  rw [List.filter_eq_self.mpr ?_]
  · simp [List.length_take]
    omega
  · intro a ha
    have hmem : a ∈ labels := List.mem_of_mem_take ha
    simp [hall a hmem]

/-! ## Claim theorems -/

set_option maxRecDepth 8000

/-- C1, counterexample: a grid whose single data column holds one
non-empty, non-placeholder value (a "Description") yields one non-empty
bucket from `collect_profiles`, yet `build_turtle` emits zero node
blocks for it — refuting "each column whose bucket collects at least one
value produces exactly one emitted output node". -/
theorem c1_counterexample :
    (collect_profiles c1_grid).length = 1 ∧
      emit_profiles (collect_profiles c1_grid) = [] := ⟨rfl, rfl⟩

/-- C1, amended: `build_turtle` emits exactly one node block per profile
whose bucket yields a primary name (a "Data Type" or "Access Level"
value) and zero blocks per profile lacking both; `collect_profiles`
returns only buckets holding at least one non-empty value list, so empty
columns yield zero nodes. -/
theorem c1_theorem :
    (∀ ps : List Profile, (emit_profiles ps).length =
      (ps.filter (fun p => !(gov_names p).isEmpty)).length) ∧
    (∀ g : Grid, (collect_profiles g).all
      (fun p => p.fields.any (fun kv => !kv.2.isEmpty)) = true) :=
  ⟨fun ps => emit_profiles_go_length ps [], collect_profiles_nonempty⟩

/-- C2, counterexample: the label sequence A, A2, A makes
`camel_case_identifier` return A, A2, A2 — the suffixed second use of
base A collides with the verbatim base A2, refuting pairwise
distinctness over every possible label sequence. -/
theorem c2_counterexample :
    allocate_ids ["A", "A2", "A"] = ["A", "A2", "A2"] ∧
      ¬ (allocate_ids ["A", "A2", "A"]).Nodup := ⟨rfl, by decide⟩

/-- C2, amended: within one run, identifiers allocated for any two
labels that normalize to the same identifier base are distinct (the
usage counter appends a fresh decimal suffix); distinctness can fail
only across different bases, when one base equals another base with a
decimal suffix appended. -/
theorem c2_theorem {labels : List String} {i j : Nat} {li lj : String}
    (hij : i < j) (hi : labels[i]? = some li) (hj : labels[j]? = some lj)
    (hb : identifier_base li = identifier_base lj) :
    (allocate_ids labels)[i]? ≠ (allocate_ids labels)[j]? :=
  alloc_same_base_ne hij hi hj hb

/-- C2, witness: the amended theorem at the concrete run A, a — two
labels with the common base A receive distinct identifiers. -/
theorem c2_witness :
    (allocate_ids ["A", "a"])[0]? ≠ (allocate_ids ["A", "a"])[1]? := by
  have h1 : (["A", "a"] : List String)[0]? = some "A" := by decide
  have h2 : (["A", "a"] : List String)[1]? = some "a" := by decide
  have hb : identifier_base "A" = identifier_base "a" := by decide
  exact c2_theorem (by decide) h1 h2 hb

/-- C3, counterexample: in `lift_gov_rules.py`, a profile labelled
"HIPAA Safe Harbor" (override list, no marker flags) emits one node that
is subclassed under `sagegov:Data` but carries no
`sagegov:AccessProfile` classification at all — refuting "classified as
both Data and AccessProfile". -/
theorem c3_counterexample :
    (emit_profiles [c3_profile]).length = 1 ∧
      (emit_profiles [c3_profile]).all
        (fun b => strContainsB b "rdfs:subClassOf sagegov:Data") = true ∧
      (emit_profiles [c3_profile]).all
        (fun b => !(strContainsB b "sagegov:AccessProfile")) = true :=
  ⟨rfl, by decide, by decide⟩

/-- C3, amended: for a primary label on the override list (normalized,
case-insensitively), `lift_datatype_rules.py` classifies the node as
both `sagegov:Data` and `sagegov:AccessProfile` regardless of the marker
flags, while `lift_gov_rules.py` forces the Data classification only and
suppresses the AccessProfile class. -/
theorem c3_theorem (d : Bool) (pref_label : String)
    (h : ALSO_DATA_LABELS.contains (strLower (normalize_label_text pref_label)) = true) :
    gov_classify d pref_label = (true, []) ∧
      "sagegov:Data" ∈ dt_classes d pref_label ∧
      "sagegov:AccessProfile" ∈ dt_classes d pref_label := by
  have hm : strLower (normalize_label_text pref_label) ∈ ALSO_DATA_LABELS := by
    simpa using h
  refine ⟨?_, ?_, ?_⟩
  · simp [gov_classify, hm]
  · cases d <;> simp [dt_classes, hm]
  · cases d <;> simp [dt_classes, hm]

/-- C3, witness: the amended theorem at the "HIPAA Safe Harbor" label
with both marker flags clear. -/
theorem c3_witness :
    gov_classify false "HIPAA Safe Harbor" = (true, []) ∧
      "sagegov:Data" ∈ dt_classes false "HIPAA Safe Harbor" ∧
      "sagegov:AccessProfile" ∈ dt_classes false "HIPAA Safe Harbor" :=
  c3_theorem false "HIPAA Safe Harbor" (by decide)

/-- C4, counterexample: on the two-column Clinical/Open,
Genomic/Controlled-with-marker grid, the emitter produces two nodes but
no `allowsException` statement anywhere — the Access Level branch never
applies the exception-marker rule, refuting the claimed exception
statement on node B. -/
theorem c4_counterexample :
    (emit_profiles (collect_profiles c4_grid)).length = 2 ∧
      (emit_profiles (collect_profiles c4_grid)).all
        (fun b => !(strContainsB b "allowsException")) = true :=
  ⟨rfl, by decide⟩

/-- C4, amended: the grid yields exactly two nodes; node B carries the
canonical `Controlled` access-level term (the trailing `**` is stripped
by vocabulary-key normalization) but no exception statement, and node A
carries the literal statement `"Open"` because "Open" does not resolve
(the open tier's lookup key is "anonymousopen"). -/
theorem c4_theorem :
    emit_profiles (collect_profiles c4_grid) =
      ["sagegov:Clinical\n  skos:prefLabel \"Clinical\" ;\n  rdfs:subClassOf sagegov:Data ;\n  sagegov:accessLevel \"Open\" ;\n  dct:source \"reference/DataTypes-brief-Sept2025.xlsx\" .",
       "sagegov:Genomic\n  skos:prefLabel \"Genomic\" ;\n  rdfs:subClassOf sagegov:Data ;\n  sagegov:accessLevel sagegov:Controlled ;\n  dct:source \"reference/DataTypes-brief-Sept2025.xlsx\" ."] := by
  rfl

/-- C5, confirmed: when the value at index `i` is the first of the
access-level list to resolve (to term `t`), the branch emits exactly one
canonical term statement — for that value — followed by one
`accessLevelNote` literal statement per remaining value, resolved or
not, in order; no second canonical statement exists. -/
theorem c5_theorem (predicate : String) (values : List String) (i : Nat) (v t : String)
    (hv : values[i]? = some v) (ht : access_level_term v = some t)
    (hmin : ∀ j w, j < i → values[j]? = some w → access_level_term w = none) :
    access_level_lines predicate values =
      s!"  {predicate} sagegov:{t} ;" ::
        (values.eraseIdx i).map access_level_note_stmt := by
  have hfc := find_canonical_first values i v t hv ht hmin
  simp only [access_level_lines, hfc]
  rw [access_level_note_lines_eq values 0 i]
  simp

/-- C5, witness: the values Registered, Controlled yield the canonical
`Registered` statement with `Controlled` only as a note. -/
theorem c5_witness :
    access_level_lines "sagegov:accessLevel" ["Registered", "Controlled"] =
      ["  sagegov:accessLevel sagegov:Registered ;",
       "  sagegov:accessLevelNote \"Controlled\" ;"] := by
  have h := c5_theorem "sagegov:accessLevel" ["Registered", "Controlled"] 0 "Registered"
    "Registered" (by decide) (by decide)
    (fun j w hj _ => absurd hj (Nat.not_lt_zero j))
  exact h.trans (by decide)

/-- C6, confirmed: a security-standards cell "NIST 800-171 / ISO 27001"
matches exactly the NIST 800-171 and ISO 27001 standards, and appending
that one cell to any value list adds exactly one term statement per
matched standard to the emitted lines. -/
theorem c6_theorem (predicate : String) (values : List String) :
    security_lines predicate (values ++ ["NIST 800-171 / ISO 27001"]) =
      security_lines predicate values ++
        ["NIST800171", "ISO27001"].map (fun t => s!"  {predicate} sagegov:{t} ;") ∧
      security_standard_terms "NIST 800-171 / ISO 27001" = ["NIST800171", "ISO27001"] := by
  have hts : security_standard_terms "NIST 800-171 / ISO 27001" =
      ["NIST800171", "ISO27001"] := by decide
  refine ⟨?_, hts⟩
  simp only [security_lines, List.flatMap_append, List.flatMap_cons, List.flatMap_nil,
    List.append_nil, hts]
  simp

/-- C7, confirmed: N calls on labels sharing one identifier base, with
one usage counter, return N pairwise distinct identifiers — the first
call gets the unsuffixed base and the k-th call (k at least 2, given
0-indexed position k-1) gets the base followed by the decimal numeral
k. -/
theorem c7_theorem (labels : List String) (b : String) (hne : labels ≠ [])
    (hall : ∀ l ∈ labels, identifier_base l = b) :
    (allocate_ids labels).length = labels.length ∧
      (allocate_ids labels)[0]? = some b ∧
      (∀ k, 1 ≤ k → k < labels.length →
        (allocate_ids labels)[k]? = some (b ++ Nat.repr (k + 1))) ∧
      (allocate_ids labels).Nodup := by
  have hlen := allocate_ids_length labels
  refine ⟨hlen, ?_, ?_, ?_⟩
  · have h0 : 0 < labels.length := List.length_pos.mpr hne
    have hget : labels[0]? = some labels[0] := List.getElem?_eq_getElem h0
    rw [allocate_ids_getElem?, hget]
    have hb0 : identifier_base labels[0] = b := hall _ (labels.getElem_mem h0)
    simp [Option.map, hb0, id_spec, base_count]
  · intro k hk1 hk2
    have hget : labels[k]? = some labels[k] := List.getElem?_eq_getElem hk2
    rw [allocate_ids_getElem?, hget]
    have hbk : identifier_base labels[k] = b := hall _ (labels.getElem_mem hk2)
    have hbc : base_count (labels.take k) b = k :=
      base_count_take_of_all hall (le_of_lt hk2)
    have hk0 : ¬ k = 0 := by omega
    simp [Option.map, hbk, hbc, id_spec, hk0]
  · rw [List.nodup_iff_injective_get]
    intro a c heq
    have key : ∀ x y : Fin (allocate_ids labels).length, x.1 < y.1 →
        (allocate_ids labels).get x ≠ (allocate_ids labels).get y := by
      intro x y hxy
      have hx : x.1 < labels.length := hlen ▸ x.2
      have hy : y.1 < labels.length := hlen ▸ y.2
      have h1 : labels[x.1]? = some labels[x.1] := List.getElem?_eq_getElem hx
      have h2 : labels[y.1]? = some labels[y.1] := List.getElem?_eq_getElem hy
      have hbe : identifier_base labels[x.1] = identifier_base labels[y.1] := by
        rw [hall _ (labels.getElem_mem hx), hall _ (labels.getElem_mem hy)]
      have hne2 := alloc_same_base_ne hxy h1 h2 hbe
      intro hgeq
      apply hne2
      rw [List.getElem?_eq_getElem x.2, List.getElem?_eq_getElem y.2]
      simpa [List.get_eq_getElem] using congrArg some hgeq
    rcases Nat.lt_trichotomy a.1 c.1 with h | h | h
    · exact absurd heq (key a c h)
    · exact Fin.ext h
    · exact absurd heq.symm (key c a h)

/-- C7, witness: the run A, a, A (all of base A) yields the three
distinct identifiers A, A2, A3. -/
theorem c7_witness :
    (allocate_ids ["A", "a", "A"]).length = 3 ∧
      (allocate_ids ["A", "a", "A"])[0]? = some "A" ∧
      (allocate_ids ["A", "a", "A"])[2]? = some ("A" ++ Nat.repr 3) ∧
      (allocate_ids ["A", "a", "A"]).Nodup := by
  have h := c7_theorem ["A", "a", "A"] "A" (by decide) (by decide)
  exact ⟨h.1, h.2.1, h.2.2.1 2 (by omega) (by decide), h.2.2.2⟩

/-- C8, confirmed: in the generic property branch, a boolean-field value
ending in the exception marker `**` contributes exactly its
(marker-stripped) formatted statement followed by a secondary
`allowsException true` statement on the same node. -/
theorem c8_theorem (label predicate value : String) (values : List String)
    (h : strEndsWith value EXCEPTION_MARKER = true) :
    plain_field_lines label predicate (values ++ [value]) =
      plain_field_lines label predicate values ++
        (let fv := format_value label value
         [s!"  {predicate} {fv} ;", "  sagegov:allowsException true ;"]) := by
  simp only [plain_field_lines, List.flatMap_append, List.flatMap_cons, List.flatMap_nil,
    List.append_nil, h]
  simp

/-- C8, witness: the value Yes** in the boolean field "Downloadable
data" emits the stripped boolean `true` statement plus the
exception-allowed statement. -/
theorem c8_witness :
    plain_field_lines "Downloadable data" "sagegov:downloadable" ["Yes**"] =
      ["  sagegov:downloadable true ;", "  sagegov:allowsException true ;"] ∧
      normalize_bool "Yes**" = some true := by
  constructor
  · have h := c8_theorem "Downloadable data" "sagegov:downloadable" "Yes**" [] (by decide)
    exact h.trans (by decide)
  · decide

/-- C9, confirmed: the transformation core fails exactly when the grid
yields zero non-empty profiles; for every grid with at least one profile
it completes and returns the built document — per-cell anomalies are
absorbed inside `build_turtle`, which is total. -/
theorem c9_theorem (g : Grid) :
    ((run_transform g).isOk = !(collect_profiles g).isEmpty) ∧
      ((collect_profiles g).isEmpty = false →
        run_transform g = Except.ok (build_turtle (collect_profiles g))) ∧
      ((collect_profiles g).isEmpty = true →
        run_transform g = Except.error "No profiles found in the worksheet") := by
  refine ⟨?_, ?_, ?_⟩ <;>
    cases hp : (collect_profiles g).isEmpty <;>
      simp [run_transform, hp, Except.isOk, Except.toBool]

/-- C9, witness: a grid with one usable profile runs to completion; the
empty grid propagates the fatal "No profiles found" error. -/
theorem c9_witness :
    run_transform c1_grid = Except.ok (build_turtle (collect_profiles c1_grid)) ∧
      run_transform c9_empty_grid = Except.error "No profiles found in the worksheet" :=
  ⟨(c9_theorem c1_grid).2.1 (by rfl), (c9_theorem c9_empty_grid).2.2 (by rfl)⟩

/-- C10, confirmed: any security-standards value whose normalized text
contains the two letters "no" matches the no-security-standard keyword
pattern — the first vocabulary entry — so the branch emits term
statements (headed by `NoSecurityStandard`) instead of a literal. -/
theorem c10_theorem (value : String)
    (h : strContainsB (security_norm_text value) "no" = true) :
    "NoSecurityStandard" ∈ security_standard_terms value ∧
      ∀ predicate : String, security_lines predicate [value] =
        (security_standard_terms value).map
          (fun t => s!"  {predicate} sagegov:{t} ;") := by
  have hmem : "NoSecurityStandard" ∈ security_standard_terms value := by
    simp only [security_standard_terms]
    apply List.mem_filterMap.mpr
    refine ⟨("NoSecurityStandard", [["no"]]), ?_, ?_⟩
    · simp [SECURITY_STANDARD_KEYWORDS]
    · simp [h]
  refine ⟨hmem, ?_⟩
  intro predicate
  have hne : security_standard_terms value ≠ [] := List.ne_nil_of_mem hmem
  cases hterm : security_standard_terms value with
  | nil => exact absurd hterm hne
  | cons a as =>
    simp only [security_lines, List.flatMap_cons, List.flatMap_nil, List.append_nil, hterm]
    simp

/-- C10, witness: the values "Unknown" and "None required" both contain
"no" and resolve to the `NoSecurityStandard` term. -/
theorem c10_witness :
    "NoSecurityStandard" ∈ security_standard_terms "Unknown" ∧
      security_lines "sagegov:requireSecurity" ["None required"] =
        ["  sagegov:requireSecurity sagegov:NoSecurityStandard ;"] := by
  constructor
  · have h := c10_theorem "Unknown" (by decide)
    exact h.1
  · have h := c10_theorem "None required" (by decide)
    exact (h.2 "sagegov:requireSecurity").trans (by decide)

end Synbiont
